import Mathlib

/-!
Verification of the Kerberos ticket-renewal engine
(`airflow/security/kerberos.py`).

The Python module is shallowly embedded below.  External effects are made
explicit:

* the Airflow configuration becomes a `Conf` record (the `kerberos`
  section values the module reads);
* the outside world of one renewal cycle (hostname resolution, the exit
  status of the spawned `kinit` process, the result of reading the ticket
  cache file, the exit status of the workaround `kinit -R` invocation)
  becomes an `Env` record;
* the process-wide mutable global `NEED_KRB181_WORKAROUND : bool | None`
  is threaded explicitly as an `Option Bool` state;
* observable side effects (spawning the tool, running detection, the
  brief sleep, the workaround invocation, interval sleeps, the warning
  log) become events collected in a trace;
* `sys.exit` and raised exceptions become distinct result constructors.
-/

namespace Kerberos

/-- The `kerberos` configuration section consumed by the module.
`principal` is the only optional value (`conf.get_mandatory_value` raises
when it is absent); the spec lists the others as required, and no claim
exercises their absence, so they are plain fields. -/
structure Conf where
  principal : Option String
  reinit_frequency : Nat
  kinit_path : String
  ccache : String
  forwardable : Bool
  include_ip : Bool
deriving Repr, DecidableEq

/-- Result of `open(ticket_cache, "rb"); file.read()`: either the raw
bytes of the cache file, or an IOError. -/
inductive ReadResult where
  | ok (bytes : List Nat)
  | readErr
deriving Repr, DecidableEq

/-- The external world as seen by one renewal cycle. -/
structure Env where
  hostname : String
  toolExit : Int
  cacheRead : ReadResult
  workaroundExit : Int
deriving Repr, DecidableEq

/-- Configuration errors raised by `conf.get_mandatory_value`. -/
inductive ConfigErr where
  | missingPrincipal
deriving Repr, DecidableEq

/-- `class KerberosMode(Enum)`: modes for running airflow kerberos. -/
inductive KerberosMode where
  | standard
  | one_time
deriving Repr, DecidableEq

/-- The string value of each mode (`"standard"` / `"one-time"`). -/
def KerberosMode.value : KerberosMode → String
  | .standard => "standard"
  | .one_time => "one-time"

/-- Worker for `pyReplace`, structurally recursive on a fuel bounded by
the subject's length: at each position, if the (non-empty) pattern starts
here, emit the replacement and skip past the match, else keep the
character and move one position right. -/
def pyReplaceAux (pattern repl : List Char) : Nat → List Char → List Char
  | _, [] => []
  | 0, s => s
  | fuel + 1, c :: rest =>
    if pattern.isPrefixOf (c :: rest) ∧ pattern ≠ [] then
      repl ++ pyReplaceAux pattern repl fuel ((c :: rest).drop pattern.length)
    else
      c :: pyReplaceAux pattern repl fuel rest

/-- Python's `str.replace(pattern, repl)` for a non-empty pattern:
replace every non-overlapping occurrence, scanning left to right. -/
def pyReplace (s pattern repl : String) : String :=
  ⟨pyReplaceAux pattern.toList repl.toList s.toList.length s.toList⟩

/-- `get_kerberos_principal(principal)`:
`principal or conf.get_mandatory_value("kerberos", "principal").replace("_HOST", get_hostname())`.
Python `or` takes the left operand when it is truthy (a non-empty string);
otherwise the configured template is mandatory and has every occurrence of
`"_HOST"` replaced by the hostname. -/
def get_kerberos_principal (conf : Conf) (hostname : String)
    (principal : Option String) : Except ConfigErr String :=
  let p := principal.getD ""
  if p ≠ "" then .ok p
  else
    match conf.principal with
    | some t => .ok (pyReplace t "_HOST" hostname)
    | none => .error .missingPrincipal

/-- The marker bytes `b"X-CACHECONF:"` checked by `detect_conf_var`. -/
def krbMarker : List Nat := (String.toList "X-CACHECONF:").map Char.toNat

/-- Python bytes containment `needle in hay`: does `needle` occur as a
contiguous run anywhere in `hay`? -/
def bytesContain (needle : List Nat) : List Nat → Bool
  | [] => needle.isEmpty
  | b :: rest => needle.isPrefixOf (b :: rest) || bytesContain needle rest

/-- `detect_conf_var()` applied to the bytes read from the ticket cache:
`b"X-CACHECONF:" in file.read()`. -/
def detect_conf_var (contents : List Nat) : Bool :=
  bytesContain krbMarker contents

/-- What `perform_krb181_workaround` interpolates into its error log:
the principal string shown and the ccache path shown. -/
structure WkLog where
  shownPrincipal : String
  shownCcache : String
deriving Repr, DecidableEq

/-- Modelled from the spec: `conf.get("kerberos", "principal")` is served
by the Airflow configuration module, which is outside this repository
slice; per the spec's configuration surface it returns the configured
`principal` value. -/
def conf_get_principal (conf : Conf) : String := conf.principal.getD ""

/-- `perform_krb181_workaround(principal)`: runs
`[kinit_path, "-c", ccache, "-R"]`; on non-zero exit builds
`principal = f"{principal or conf.get('kerberos','principal')}/{get_hostname()}"`
and logs it together with the ccache path; returns the raw exit code. -/
def perform_krb181_workaround (conf : Conf) (hostname : String)
    (workaroundExit : Int) (principal : String) : Int × Option WkLog :=
  let ret := workaroundExit
  if ret ≠ 0 then
    let p := (if principal ≠ "" then principal else conf_get_principal conf)
      ++ "/" ++ hostname
    (ret, some ⟨p, conf.ccache⟩)
  else
    (ret, none)

/-- The argv of the workaround invocation
(`[kinit_path, "-c", ccache, "-R"]`). -/
def workaround_cmdv (conf : Conf) : List String :=
  [conf.kinit_path, "-c", conf.ccache, "-R"]

/-- Observable events of one `renew_from_kt` call. -/
inductive CEvent where
  | tool (cmdv : List String)
  | detect
  | briefSleep
  | workaround (cmdv : List String)
deriving Repr, DecidableEq

/-- How a `renew_from_kt` call ends: a normal Python `return` with an
integer value, `sys.exit(code)`, a propagated IOError from
`detect_conf_var`, or a propagated configuration error. -/
inductive RenewResult where
  | ret (code : Int)
  | procExit (code : Int)
  | cacheErr
  | confErr
deriving Repr, DecidableEq

/-- The tail of `renew_from_kt` from `if NEED_KRB181_WORKAROUND:` on,
entered with the (now resolved) workaround state: if the state is truthy,
sleep 1.5s, run the workaround, and either `sys.exit(ret)` (when
`exit_on_fail` and `ret != 0`) or `return ret`; otherwise `return 0`. -/
def renew_tail (conf : Conf) (env : Env) (cmd_principal : String)
    (st : Option Bool) (exit_on_fail : Bool) (evs : List CEvent) :
    RenewResult × Option Bool × List CEvent :=
  match st with
  | some true =>
    let ret := (perform_krb181_workaround conf env.hostname
      env.workaroundExit cmd_principal).1
    let evs' := evs ++ [.briefSleep, .workaround (workaround_cmdv conf)]
    if exit_on_fail && ret ≠ 0 then (.procExit ret, st, evs')
    else (.ret ret, st, evs')
  | _ => (.ret 0, st, evs)

/-- The argv list `cmdv` that `renew_from_kt` builds for the renewal
tool: forwardable flag, include-IP flag, renewal lifetime (the
`reinit_frequency` seconds value rendered with an `m` suffix), host
ticket mode, keytab, credentials cache, principal. -/
def kinit_cmdv (conf : Conf) (keytab cmd_principal : String) : List String :=
  let renewal_lifetime := toString conf.reinit_frequency ++ "m"
  let forwardable := if conf.forwardable then "-f" else "-F"
  let include_ip := if conf.include_ip then "-a" else "-A"
  [conf.kinit_path, forwardable, include_ip, "-r", renewal_lifetime,
    "-k", "-t", keytab, "-c", conf.ccache, cmd_principal]

/-- `renew_from_kt(principal, keytab, exit_on_fail=True)` for one cycle:
builds the kinit argv, spawns the tool; on non-zero exit either
`sys.exit`s or returns the code; on success lazily computes the
`NEED_KRB181_WORKAROUND` global via `detect_conf_var()` and, when it is
set, performs the 1.8.1 workaround. -/
def renew_from_kt (conf : Conf) (env : Env) (st : Option Bool)
    (principal : Option String) (keytab : String)
    (exit_on_fail : Bool := true) :
    RenewResult × Option Bool × List CEvent :=
  match get_kerberos_principal conf env.hostname principal with
  | .error _ => (.confErr, st, [])
  | .ok cmd_principal =>
    let cmdv : List String := kinit_cmdv conf keytab cmd_principal
    if env.toolExit ≠ 0 then
      if exit_on_fail then (.procExit env.toolExit, st, [.tool cmdv])
      else (.ret env.toolExit, st, [.tool cmdv])
    else
      match st with
      | none =>
        match env.cacheRead with
        | .readErr => (.cacheErr, none, [.tool cmdv, .detect])
        | .ok bytes =>
          renew_tail conf env cmd_principal (some (detect_conf_var bytes))
            exit_on_fail [.tool cmdv, .detect]
      | some b =>
        renew_tail conf env cmd_principal (some b) exit_on_fail [.tool cmdv]

/-- Observable events of `run`. -/
inductive SEvent where
  | renewal (evs : List CEvent)
  | intervalSleep (secs : Nat)
  | warnNoKeytab
deriving Repr, DecidableEq

/-- How a `run` call ends.  `fuelOut` marks an observation cut-off of the
unbounded `while True:` loop, not a program behaviour. -/
inductive RunResult where
  | exit (code : Int)
  | done
  | fuelOut
  | cacheErr
  | confErr
deriving Repr, DecidableEq

/-- The `while True:` loop of `run` in STANDARD mode, observed for `fuel`
iterations: each iteration calls `renew_from_kt(principal, keytab)` (with
the default `exit_on_fail=True`) and then sleeps `reinit_frequency`
seconds; a `sys.exit` or a propagated exception ends the process. -/
def run_cycles (conf : Conf) (envs : Nat → Env) (principal : Option String)
    (keytab : String) (st : Option Bool) :
    Nat → RunResult × Option Bool × List SEvent
  | 0 => (.fuelOut, st, [])
  | n + 1 =>
    match renew_from_kt conf (envs 0) st principal keytab with
    | (.ret _, st', evs) =>
      let rest := run_cycles conf (fun i => envs (i + 1)) principal keytab st' n
      (rest.1, rest.2.1,
        .renewal evs :: .intervalSleep conf.reinit_frequency :: rest.2.2)
    | (.procExit c, st', evs) => (.exit c, st', [.renewal evs])
    | (.cacheErr, st', evs) => (.cacheErr, st', [.renewal evs])
    | (.confErr, st', evs) => (.confErr, st', [.renewal evs])

/-- `run(principal, keytab, mode=KerberosMode.STANDARD)`: if no keytab is
configured, warn and `sys.exit(0)`; otherwise loop forever in STANDARD
mode or perform a single `renew_from_kt` in ONE_TIME mode.  The process
starts with `NEED_KRB181_WORKAROUND = None`. -/
def run (conf : Conf) (envs : Nat → Env) (fuel : Nat)
    (principal : Option String) (keytab : String)
    (mode : KerberosMode := .standard) :
    RunResult × Option Bool × List SEvent :=
  if keytab = "" then (.exit 0, none, [.warnNoKeytab])
  else
    match mode with
    | .standard => run_cycles conf envs principal keytab none fuel
    | .one_time =>
      match renew_from_kt conf (envs 0) none principal keytab with
      | (.ret _, st', evs) => (.done, st', [.renewal evs])
      | (.procExit c, st', evs) => (.exit c, st', [.renewal evs])
      | (.cacheErr, st', evs) => (.cacheErr, st', [.renewal evs])
      | (.confErr, st', evs) => (.confErr, st', [.renewal evs])

/-! ### Basic equations for the embedded functions -/

theorem perform_krb181_workaround_fst (conf : Conf) (hostname : String)
    (wexit : Int) (p : String) :
    (perform_krb181_workaround conf hostname wexit p).1 = wexit := by
  by_cases h : wexit = 0 <;> simp [perform_krb181_workaround, h]

theorem renew_tail_some_false (conf : Conf) (env : Env) (cp : String)
    (eof : Bool) (evs : List CEvent) :
    renew_tail conf env cp (some false) eof evs = (.ret 0, some false, evs) :=
  rfl

theorem renew_tail_some_true (conf : Conf) (env : Env) (cp : String)
    (eof : Bool) (evs : List CEvent) :
    renew_tail conf env cp (some true) eof evs =
      (if eof && env.workaroundExit ≠ 0 then .procExit env.workaroundExit
        else .ret env.workaroundExit, some true,
        evs ++ [.briefSleep, .workaround (workaround_cmdv conf)]) := by
  simp only [renew_tail, perform_krb181_workaround_fst]
  split <;> rfl

theorem renew_from_kt_confErr (conf : Conf) (env : Env) (st : Option Bool)
    (p : Option String) (k : String) (eof : Bool) (e : ConfigErr)
    (hp : get_kerberos_principal conf env.hostname p = .error e) :
    renew_from_kt conf env st p k eof = (.confErr, st, []) := by
  simp [renew_from_kt, hp]

theorem renew_from_kt_toolFail (conf : Conf) (env : Env) (st : Option Bool)
    (p : Option String) (k : String) (eof : Bool) (cp : String)
    (hp : get_kerberos_principal conf env.hostname p = .ok cp)
    (hne : env.toolExit ≠ 0) :
    renew_from_kt conf env st p k eof =
      (if eof then .procExit env.toolExit else .ret env.toolExit, st,
        [.tool (kinit_cmdv conf k cp)]) := by
  cases eof <;> simp [renew_from_kt, hp, hne]

theorem renew_from_kt_success_known (conf : Conf) (env : Env)
    (p : Option String) (k : String) (eof : Bool) (b : Bool) (cp : String)
    (hp : get_kerberos_principal conf env.hostname p = .ok cp)
    (h0 : env.toolExit = 0) :
    renew_from_kt conf env (some b) p k eof
      = renew_tail conf env cp (some b) eof [.tool (kinit_cmdv conf k cp)] := by
  simp [renew_from_kt, hp, h0]

theorem renew_from_kt_unknown_ok (conf : Conf) (env : Env)
    (p : Option String) (k : String) (eof : Bool) (bytes : List Nat)
    (cp : String)
    (hp : get_kerberos_principal conf env.hostname p = .ok cp)
    (h0 : env.toolExit = 0) (hr : env.cacheRead = .ok bytes) :
    renew_from_kt conf env none p k eof
      = renew_tail conf env cp (some (detect_conf_var bytes)) eof
          [.tool (kinit_cmdv conf k cp), .detect] := by
  simp [renew_from_kt, hp, h0, hr]

theorem renew_from_kt_unknown_err (conf : Conf) (env : Env)
    (p : Option String) (k : String) (eof : Bool) (cp : String)
    (hp : get_kerberos_principal conf env.hostname p = .ok cp)
    (h0 : env.toolExit = 0) (hr : env.cacheRead = .readErr) :
    renew_from_kt conf env none p k eof
      = (.cacheErr, none, [.tool (kinit_cmdv conf k cp), .detect]) := by
  simp [renew_from_kt, hp, h0, hr]

/-! ### Substring containment, for the cache-marker detection -/

theorem isPrefixOf_eq_true_iff (n h : List Nat) :
    n.isPrefixOf h = true ↔ ∃ t, h = n ++ t := by
  induction n generalizing h with
  | nil => simp
  | cons a as ih =>
    cases h with
    | nil => simp [List.isPrefixOf]
    | cons b bs =>
      simp only [List.isPrefixOf, Bool.and_eq_true, beq_iff_eq, ih,
        List.cons_append, List.cons.injEq]
      constructor
      · rintro ⟨rfl, t, rfl⟩
        exact ⟨t, rfl, rfl⟩
      · rintro ⟨t, rfl, rfl⟩
        exact ⟨rfl, t, rfl⟩

theorem bytesContain_iff (n h : List Nat) :
    bytesContain n h = true ↔ ∃ s t, h = s ++ n ++ t := by
  induction h with
  | nil =>
    simp only [bytesContain, List.isEmpty_iff]
    constructor
    · rintro rfl
      exact ⟨[], [], rfl⟩
    · rintro ⟨s, t, hst⟩
      rcases List.append_eq_nil.mp (List.append_eq_nil.mp hst.symm).1
        with ⟨-, h2⟩
      exact h2
  | cons b bs ih =>
    simp only [bytesContain, Bool.or_eq_true, isPrefixOf_eq_true_iff, ih]
    constructor
    · rintro (⟨t, ht⟩ | ⟨s, t, hst⟩)
      · exact ⟨[], t, by simpa using ht⟩
      · exact ⟨b :: s, t, by simp [hst]⟩
    · rintro ⟨s, t, hst⟩
      cases s with
      | nil =>
        exact Or.inl ⟨t, by simpa using hst⟩
      | cons c s =>
        simp only [List.cons_append, List.cons.injEq] at hst
        exact Or.inr ⟨s, t, hst.2⟩

/-- C4: for every ticket cache file contents, `detect_conf_var` returns
true if and only if the marker byte sequence `b"X-CACHECONF:"` occurs
anywhere (contiguously) in the file's raw bytes. -/
theorem detect_conf_var_marker_anywhere (contents : List Nat) :
    detect_conf_var contents = true
      ↔ ∃ s t, contents = s ++ krbMarker ++ t := by
  simpa [detect_conf_var] using bytesContain_iff krbMarker contents

/-- C5: a non-empty explicit principal is returned unchanged; with no
explicit principal (`None` or the empty string) the configured template
is returned with `"_HOST"` replaced by the hostname, and when no
principal is configured either, a configuration error results. -/
theorem get_kerberos_principal_resolution (conf : Conf) (hostname : String) :
    (∀ p : String, p ≠ "" →
      get_kerberos_principal conf hostname (some p) = .ok p)
    ∧ (∀ t, conf.principal = some t →
        get_kerberos_principal conf hostname none
            = .ok (pyReplace t "_HOST" hostname)
          ∧ get_kerberos_principal conf hostname (some "")
            = .ok (pyReplace t "_HOST" hostname))
    ∧ (conf.principal = none →
        get_kerberos_principal conf hostname none = .error .missingPrincipal
          ∧ get_kerberos_principal conf hostname (some "")
            = .error .missingPrincipal) := by
  refine ⟨fun p hp => ?_, fun t ht => ⟨?_, ?_⟩, fun h => ⟨?_, ?_⟩⟩ <;>
    simp [get_kerberos_principal, *]

/-- Closed witness for C5, on a template with two placeholder
occurrences. -/
theorem get_kerberos_principal_resolution_witness :
    get_kerberos_principal
        ⟨some "svc/_HOST@_HOST", 600, "/usr/bin/kinit", "/tmp/cc", true, true⟩
        "h1" (some "alice@R") = .ok "alice@R"
    ∧ get_kerberos_principal
        ⟨some "svc/_HOST@_HOST", 600, "/usr/bin/kinit", "/tmp/cc", true, true⟩
        "h1" none = .ok "svc/h1@h1"
    ∧ get_kerberos_principal
        ⟨none, 600, "/usr/bin/kinit", "/tmp/cc", true, true⟩
        "h1" none = .error .missingPrincipal := by
  refine ⟨(get_kerberos_principal_resolution _ "h1").1 "alice@R" (by decide),
    ?_, ((get_kerberos_principal_resolution _ "h1").2.2 rfl).1⟩
  have h := (((get_kerberos_principal_resolution
    ⟨some "svc/_HOST@_HOST", 600, "/usr/bin/kinit", "/tmp/cc", true, true⟩
    "h1").2.1) "svc/_HOST@_HOST" rfl).1
  have hrepl : pyReplace "svc/_HOST@_HOST" "_HOST" "h1" = "svc/h1@h1" := by
    decide
  rw [h, hrepl]

/-- C6: calling `run` with an empty keytab logs the warning and exits the
process with status 0; no renewal (hence no tool spawn) ever happens. -/
theorem run_no_keytab_exits_zero (conf : Conf) (envs : Nat → Env)
    (fuel : Nat) (p : Option String) (mode : KerberosMode) :
    run conf envs fuel p "" mode = (.exit 0, none, [.warnNoKeytab])
    ∧ ∀ evs, SEvent.renewal evs ∉ (run conf envs fuel p "" mode).2.2 := by
  constructor
  · simp [run]
  · intro evs
    simp [run]

/-- The events of `renew_tail` extend the events passed in. -/
theorem renew_tail_events_extend (conf : Conf) (env : Env) (cp : String)
    (st : Option Bool) (eof : Bool) (evs : List CEvent) :
    ∃ extra, (renew_tail conf env cp st eof evs).2.2 = evs ++ extra
      ∧ CEvent.detect ∉ extra := by
  match st with
  | none => exact ⟨[], by simp [renew_tail]⟩
  | some false => exact ⟨[], by simp [renew_tail_some_false]⟩
  | some true =>
    refine ⟨[.briefSleep, .workaround (workaround_cmdv conf)], ?_, by simp⟩
    rw [renew_tail_some_true]

/-- Whenever the principal resolves, the event trace of `renew_from_kt`
starts with the tool invocation carrying `kinit_cmdv`. -/
theorem renew_from_kt_events_head (conf : Conf) (env : Env)
    (st : Option Bool) (p : Option String) (k : String) (eof : Bool)
    (cp : String)
    (hp : get_kerberos_principal conf env.hostname p = .ok cp) :
    ∃ rest, (renew_from_kt conf env st p k eof).2.2
      = CEvent.tool (kinit_cmdv conf k cp) :: rest := by
  by_cases hne : env.toolExit = 0
  · match st with
    | some b =>
      rw [renew_from_kt_success_known conf env p k eof b cp hp hne]
      obtain ⟨extra, hx, -⟩ := renew_tail_events_extend conf env cp (some b)
        eof [.tool (kinit_cmdv conf k cp)]
      exact ⟨extra, by simp [hx]⟩
    | none =>
      cases hr : env.cacheRead with
      | readErr =>
        rw [renew_from_kt_unknown_err conf env p k eof cp hp hne hr]
        exact ⟨[.detect], rfl⟩
      | ok bytes =>
        rw [renew_from_kt_unknown_ok conf env p k eof bytes cp hp hne hr]
        obtain ⟨extra, hx, -⟩ := renew_tail_events_extend conf env cp
          (some (detect_conf_var bytes)) eof
          [.tool (kinit_cmdv conf k cp), .detect]
        exact ⟨.detect :: extra, by simp [hx]⟩
  · rw [renew_from_kt_toolFail conf env st p k eof cp hp hne]
    exact ⟨[], rfl⟩

/-- C2: whenever the principal resolves, the argv passed to the renewal
tool is exactly, in order: tool path, forwardable flag (`-f`/`-F`),
include-IP flag (`-a`/`-A`), `-r`, the reinit-frequency seconds value
with an `m` suffix, `-k`, `-t`, keytab, `-c`, ccache, principal — for
every combination of the two boolean flags. -/
theorem renew_kinit_argv_exact (conf : Conf) (env : Env) (st : Option Bool)
    (p : Option String) (k : String) (eof : Bool) (cp : String)
    (hp : get_kerberos_principal conf env.hostname p = .ok cp) :
    ∃ rest, (renew_from_kt conf env st p k eof).2.2
      = CEvent.tool [conf.kinit_path,
          (if conf.forwardable then "-f" else "-F"),
          (if conf.include_ip then "-a" else "-A"),
          "-r", toString conf.reinit_frequency ++ "m",
          "-k", "-t", k, "-c", conf.ccache, cp] :: rest := by
  simpa [kinit_cmdv] using
    renew_from_kt_events_head conf env st p k eof cp hp

/-- Closed witness for C2 (forwardable on, include-IP off). -/
theorem renew_kinit_argv_exact_witness :
    get_kerberos_principal
        ⟨some "svc/_HOST@R", 600, "/usr/bin/kinit", "/tmp/cc", true, false⟩
        "h1" (some "alice@R") = .ok "alice@R"
    ∧ ∃ rest,
      (renew_from_kt
          ⟨some "svc/_HOST@R", 600, "/usr/bin/kinit", "/tmp/cc", true, false⟩
          ⟨"h1", 0, .ok [], 0⟩ none (some "alice@R") "kt.keytab" true).2.2
        = CEvent.tool ["/usr/bin/kinit", "-f", "-A", "-r", "600m", "-k",
            "-t", "kt.keytab", "-c", "/tmp/cc", "alice@R"] :: rest := by
  refine ⟨rfl, ?_⟩
  have h := renew_kinit_argv_exact
    ⟨some "svc/_HOST@R", 600, "/usr/bin/kinit", "/tmp/cc", true, false⟩
    ⟨"h1", 0, .ok [], 0⟩ none (some "alice@R") "kt.keytab" true "alice@R"
    rfl
  simpa using h

/-- C3: when the tool exits non-zero with status `S` and the principal
resolves, `renew_from_kt` with `exit_on_fail=True` terminates the process
with status `S`, and with `exit_on_fail=False` returns `S` to the caller;
in both cases neither cache detection nor the workaround is invoked. -/
theorem renew_tool_failure_paths (conf : Conf) (env : Env)
    (st : Option Bool) (p : Option String) (k : String) (cp : String)
    (S : Int)
    (hp : get_kerberos_principal conf env.hostname p = .ok cp)
    (hS : env.toolExit = S) (hne : S ≠ 0) :
    renew_from_kt conf env st p k true
        = (.procExit S, st, [.tool (kinit_cmdv conf k cp)])
    ∧ renew_from_kt conf env st p k false
        = (.ret S, st, [.tool (kinit_cmdv conf k cp)])
    ∧ CEvent.detect ∉ (renew_from_kt conf env st p k true).2.2
    ∧ CEvent.detect ∉ (renew_from_kt conf env st p k false).2.2
    ∧ (∀ c, CEvent.workaround c ∉ (renew_from_kt conf env st p k true).2.2)
    ∧ (∀ c, CEvent.workaround c ∉ (renew_from_kt conf env st p k false).2.2)
    := by
  subst hS
  have h1 := renew_from_kt_toolFail conf env st p k true cp hp hne
  have h2 := renew_from_kt_toolFail conf env st p k false cp hp hne
  simp only [if_pos, if_neg, Bool.false_eq_true, ite_true, ite_false] at h1 h2
  refine ⟨h1, h2, ?_, ?_, ?_, ?_⟩ <;> simp [h1, h2]

/-- Closed witness for C3, at tool exit status 2. -/
theorem renew_tool_failure_paths_witness :
    renew_from_kt
        ⟨some "svc/_HOST@R", 600, "/usr/bin/kinit", "/tmp/cc", true, false⟩
        ⟨"h1", 2, .ok [], 0⟩ none (some "alice@R") "kt.keytab" true
      = (.procExit 2, none,
          [.tool (kinit_cmdv
            ⟨some "svc/_HOST@R", 600, "/usr/bin/kinit", "/tmp/cc", true, false⟩
            "kt.keytab" "alice@R")])
    ∧ renew_from_kt
        ⟨some "svc/_HOST@R", 600, "/usr/bin/kinit", "/tmp/cc", true, false⟩
        ⟨"h1", 2, .ok [], 0⟩ none (some "alice@R") "kt.keytab" false
      = (.ret 2, none,
          [.tool (kinit_cmdv
            ⟨some "svc/_HOST@R", 600, "/usr/bin/kinit", "/tmp/cc", true, false⟩
            "kt.keytab" "alice@R")]) := by
  have h := renew_tool_failure_paths
    ⟨some "svc/_HOST@R", 600, "/usr/bin/kinit", "/tmp/cc", true, false⟩
    ⟨"h1", 2, .ok [], 0⟩ none (some "alice@R") "kt.keytab" "alice@R" 2
    rfl rfl (by decide)
  exact ⟨h.1, h.2.1⟩

/-- C1: the workaround state is computed lazily and cached.  Once it is
`some b` (Required/NotRequired) a `renew_from_kt` call preserves it and
never re-runs detection; on a successful renewal with state Required the
workaround is invoked (again, once per cycle); on a successful renewal
with state Unknown and a readable cache, detection runs exactly once and
its result is cached. -/
theorem renew_workaround_state_lazy_cached (conf : Conf) (env : Env)
    (p : Option String) (k : String) (eof : Bool) (b : Bool)
    (bytes : List Nat) (cp : String)
    (hp : get_kerberos_principal conf env.hostname p = .ok cp) :
    ((renew_from_kt conf env (some b) p k eof).2.1 = some b
      ∧ CEvent.detect ∉ (renew_from_kt conf env (some b) p k eof).2.2)
    ∧ (env.toolExit = 0 →
        CEvent.workaround (workaround_cmdv conf)
          ∈ (renew_from_kt conf env (some true) p k eof).2.2)
    ∧ (env.toolExit = 0 → env.cacheRead = .ok bytes →
        (renew_from_kt conf env none p k eof).2.1
            = some (detect_conf_var bytes)
          ∧ ((renew_from_kt conf env none p k eof).2.2).count CEvent.detect
            = 1) := by
  refine ⟨?_, fun h0 => ?_, fun h0 hr => ?_⟩
  · by_cases h0 : env.toolExit = 0
    · rw [renew_from_kt_success_known conf env p k eof b cp hp h0]
      cases b
      · rw [renew_tail_some_false]
        exact ⟨rfl, by simp⟩
      · rw [renew_tail_some_true]
        constructor
        · split <;> rfl
        · split <;> simp
    · rw [renew_from_kt_toolFail conf env (some b) p k eof cp hp h0]
      exact ⟨by split <;> rfl, by split <;> simp⟩
  · rw [renew_from_kt_success_known conf env p k eof true cp hp h0,
      renew_tail_some_true]
    split <;> simp
  · rw [renew_from_kt_unknown_ok conf env p k eof bytes cp hp h0 hr]
    cases hd : detect_conf_var bytes
    · rw [renew_tail_some_false]
      exact ⟨rfl, by simp [List.count_cons, List.count_nil]⟩
    · rw [renew_tail_some_true]
      constructor
      · split <;> rfl
      · split <;> simp [List.count_cons, List.count_nil, List.count_append]

/-- Closed witness for C1: state Required is reused (no detection) and
the workaround runs each successful cycle; from Unknown with a marked
cache, detection runs once and caches Required. -/
theorem renew_workaround_state_lazy_cached_witness :
    ((renew_from_kt
        ⟨some "svc/_HOST@R", 600, "/usr/bin/kinit", "/tmp/cc", true, false⟩
        ⟨"h1", 0, .ok krbMarker, 0⟩ (some true) (some "alice@R")
        "kt.keytab" true).2.1 = some true
      ∧ CEvent.detect ∉ (renew_from_kt
        ⟨some "svc/_HOST@R", 600, "/usr/bin/kinit", "/tmp/cc", true, false⟩
        ⟨"h1", 0, .ok krbMarker, 0⟩ (some true) (some "alice@R")
        "kt.keytab" true).2.2)
    ∧ CEvent.workaround (workaround_cmdv
        ⟨some "svc/_HOST@R", 600, "/usr/bin/kinit", "/tmp/cc", true, false⟩)
      ∈ (renew_from_kt
        ⟨some "svc/_HOST@R", 600, "/usr/bin/kinit", "/tmp/cc", true, false⟩
        ⟨"h1", 0, .ok krbMarker, 0⟩ (some true) (some "alice@R")
        "kt.keytab" true).2.2
    ∧ (renew_from_kt
        ⟨some "svc/_HOST@R", 600, "/usr/bin/kinit", "/tmp/cc", true, false⟩
        ⟨"h1", 0, .ok krbMarker, 0⟩ none (some "alice@R")
        "kt.keytab" true).2.1 = some (detect_conf_var krbMarker) := by
  have h := renew_workaround_state_lazy_cached
    ⟨some "svc/_HOST@R", 600, "/usr/bin/kinit", "/tmp/cc", true, false⟩
    ⟨"h1", 0, .ok krbMarker, 0⟩ (some "alice@R") "kt.keytab" true true
    krbMarker "alice@R" rfl
  exact ⟨⟨h.1.1, h.1.2⟩, h.2.1 rfl, (h.2.2 rfl rfl).1⟩

/-- C7: if reading the cache during detection fails on a successful
renewal, the IOError propagates, the workaround state stays Unknown (the
failure is not cached), and a later successful renewal attempts detection
again. -/
theorem detect_read_failure_not_cached (conf : Conf) (env env2 : Env)
    (p : Option String) (k : String) (eof : Bool) (cp cp2 : String)
    (hp : get_kerberos_principal conf env.hostname p = .ok cp)
    (h0 : env.toolExit = 0) (hr : env.cacheRead = .readErr)
    (hp2 : get_kerberos_principal conf env2.hostname p = .ok cp2)
    (h02 : env2.toolExit = 0) :
    renew_from_kt conf env none p k eof
        = (.cacheErr, none, [.tool (kinit_cmdv conf k cp), .detect])
    ∧ CEvent.detect ∈ (renew_from_kt conf env2 none p k eof).2.2 := by
  refine ⟨renew_from_kt_unknown_err conf env p k eof cp hp h0 hr, ?_⟩
  cases hr2 : env2.cacheRead with
  | readErr =>
    rw [renew_from_kt_unknown_err conf env2 p k eof cp2 hp2 h02 hr2]
    simp
  | ok bytes =>
    rw [renew_from_kt_unknown_ok conf env2 p k eof bytes cp2 hp2 h02 hr2]
    obtain ⟨extra, hx, -⟩ := renew_tail_events_extend conf env2 cp2
      (some (detect_conf_var bytes)) eof
      [.tool (kinit_cmdv conf k cp2), .detect]
    simp [hx]

/-- Closed witness for C7. -/
theorem detect_read_failure_not_cached_witness :
    renew_from_kt
        ⟨some "svc/_HOST@R", 600, "/usr/bin/kinit", "/tmp/cc", true, false⟩
        ⟨"h1", 0, .readErr, 0⟩ none (some "alice@R") "kt.keytab" true
      = (.cacheErr, none,
          [.tool (kinit_cmdv
            ⟨some "svc/_HOST@R", 600, "/usr/bin/kinit", "/tmp/cc", true, false⟩
            "kt.keytab" "alice@R"), .detect])
    ∧ CEvent.detect ∈ (renew_from_kt
        ⟨some "svc/_HOST@R", 600, "/usr/bin/kinit", "/tmp/cc", true, false⟩
        ⟨"h1", 0, .ok [], 0⟩ none (some "alice@R") "kt.keytab" true).2.2 :=
  detect_read_failure_not_cached
    ⟨some "svc/_HOST@R", 600, "/usr/bin/kinit", "/tmp/cc", true, false⟩
    ⟨"h1", 0, .readErr, 0⟩ ⟨"h1", 0, .ok [], 0⟩ (some "alice@R")
    "kt.keytab" true "alice@R" "alice@R" rfl rfl rfl rfl rfl

/-- Counterexample to C8 as stated: with an explicitly supplied principal
`"alice@EXAMPLE.COM"`, hostname `"host1"` and a failing workaround, the
diagnostic shows `"alice@EXAMPLE.COM/host1"` — the explicit principal
does not appear unchanged, because the code appends `"/" + hostname`
unconditionally. -/
theorem perform_krb181_workaround_log_counterexample :
    (perform_krb181_workaround
        ⟨some "airflow", 600, "/usr/bin/kinit", "/tmp/krb5cc", true, false⟩
        "host1" 1 "alice@EXAMPLE.COM").2
      = some ⟨"alice@EXAMPLE.COM/host1", "/tmp/krb5cc"⟩
    ∧ (perform_krb181_workaround
        ⟨some "airflow", 600, "/usr/bin/kinit", "/tmp/krb5cc", true, false⟩
        "host1" 1 "alice@EXAMPLE.COM").2
      ≠ some ⟨"alice@EXAMPLE.COM", "/tmp/krb5cc"⟩ := by
  constructor
  · rfl
  · intro h
    have := Option.some.inj h
    have hs : "alice@EXAMPLE.COM/host1" = "alice@EXAMPLE.COM" :=
      congrArg WkLog.shownPrincipal this
    exact absurd hs (by decide)

/-- C8 amended: on a non-zero workaround exit the diagnostic carries the
cache path and a principal of the form `P ++ "/" ++ hostname`, where `P`
is the supplied principal, falling back to the configured principal only
when none was supplied; the raw exit code is returned either way (no
process termination). -/
theorem perform_krb181_workaround_log_spec (conf : Conf) (hostname : String)
    (wexit : Int) (p t : String) (hne : wexit ≠ 0) :
    (perform_krb181_workaround conf hostname wexit p).1 = wexit
    ∧ (p ≠ "" →
        (perform_krb181_workaround conf hostname wexit p).2
          = some ⟨p ++ "/" ++ hostname, conf.ccache⟩)
    ∧ (p = "" → conf.principal = some t →
        (perform_krb181_workaround conf hostname wexit p).2
          = some ⟨t ++ "/" ++ hostname, conf.ccache⟩) := by
  refine ⟨perform_krb181_workaround_fst conf hostname wexit p,
    fun hp => ?_, fun hp ht => ?_⟩
  · simp [perform_krb181_workaround, hne, hp]
  · simp [perform_krb181_workaround, conf_get_principal, hne, hp, ht]

/-- Closed witness for the amended C8. -/
theorem perform_krb181_workaround_log_spec_witness :
    (perform_krb181_workaround
        ⟨some "airflow", 600, "/usr/bin/kinit", "/tmp/krb5cc", true, false⟩
        "host1" 1 "alice@EXAMPLE.COM").1 = 1
    ∧ (perform_krb181_workaround
        ⟨some "airflow", 600, "/usr/bin/kinit", "/tmp/krb5cc", true, false⟩
        "host1" 1 "").2
      = some ⟨"airflow/host1", "/tmp/krb5cc"⟩ := by
  have h1 := perform_krb181_workaround_log_spec
    ⟨some "airflow", 600, "/usr/bin/kinit", "/tmp/krb5cc", true, false⟩
    "host1" 1 "alice@EXAMPLE.COM" "airflow" (by decide)
  have h2 := perform_krb181_workaround_log_spec
    ⟨some "airflow", 600, "/usr/bin/kinit", "/tmp/krb5cc", true, false⟩
    "host1" 1 "" "airflow" (by decide)
  refine ⟨h1.1, ?_⟩
  rw [h2.2.2 rfl rfl]
  rfl

/-! ### The scheduler trace shape -/

/-- Does a scheduler trace consist of strictly alternating pairs
renewal-then-interval-sleep, every sleep lasting `freq` seconds? -/
def alternatesRS (freq : Nat) : List SEvent → Bool
  | [] => true
  | .renewal _ :: .intervalSleep f :: rest => f == freq && alternatesRS freq rest
  | _ => false

/-- Number of renewal invocations recorded in a scheduler trace. -/
def renewCount : List SEvent → Nat
  | [] => 0
  | SEvent.renewal _ :: r => renewCount r + 1
  | _ :: r => renewCount r

/-- When every observed cycle's renewal returns normally, the STANDARD
loop's trace is an alternating sequence of `fuel` renewals each followed
by an interval sleep of the configured duration. -/
theorem run_cycles_alternating (conf : Conf) (p : Option String)
    (k : String) :
    ∀ (fuel : Nat) (envs : Nat → Env) (st : Option Bool),
    (∀ i st0, i < fuel → ∃ c st1 evs,
        renew_from_kt conf (envs i) st0 p k = (.ret c, st1, evs)) →
    alternatesRS conf.reinit_frequency
        (run_cycles conf envs p k st fuel).2.2 = true
    ∧ renewCount (run_cycles conf envs p k st fuel).2.2 = fuel := by
  intro fuel
  induction fuel with
  | zero =>
    intro envs st h
    simp [run_cycles, alternatesRS, renewCount]
  | succ n ih =>
    intro envs st h
    obtain ⟨c, st1, evs, hr⟩ := h 0 st (Nat.succ_pos n)
    have ihx := ih (fun i => envs (i + 1)) st1
      (fun i st0 hi => h (i + 1) st0 (Nat.succ_lt_succ hi))
    simp only [run_cycles, hr]
    exact ⟨by simp [alternatesRS, ihx.1], by simp [renewCount, ihx.2]⟩

/-- C9: with a keytab, ONE_TIME mode records exactly one renewal
invocation (and, when it returns, hands control back); STANDARD mode,
as long as renewals keep returning, records an unbounded alternating
sequence renewal / interval-sleep of the configured duration — `fuel`
renewals for any observation length `fuel`, never two renewals without
an intervening sleep. -/
theorem run_modes_schedule (conf : Conf) (envs : Nat → Env)
    (p : Option String) (k : String) (fuel : Nat) (hk : k ≠ "")
    (h : ∀ i st0, i < fuel → ∃ c st1 evs,
        renew_from_kt conf (envs i) st0 p k = (.ret c, st1, evs)) :
    (∃ evs, (run conf envs fuel p k .one_time).2.2 = [SEvent.renewal evs])
    ∧ (0 < fuel → (run conf envs fuel p k .one_time).1 = .done)
    ∧ alternatesRS conf.reinit_frequency
        (run conf envs fuel p k .standard).2.2 = true
    ∧ renewCount (run conf envs fuel p k .standard).2.2 = fuel := by
  refine ⟨?_, fun hf => ?_, ?_, ?_⟩
  · rcases hre : renew_from_kt conf (envs 0) none p k with ⟨res, st1, evs⟩
    cases res <;> exact ⟨evs, by simp [run, hk, hre]⟩
  · obtain ⟨c, st1, evs, hr⟩ := h 0 none hf
    simp [run, hk, hr]
  · simpa [run, hk] using
      (run_cycles_alternating conf p k fuel envs none h).1
  · simpa [run, hk] using
      (run_cycles_alternating conf p k fuel envs none h).2

/-- Closed witness for C9, observing two STANDARD cycles. -/
theorem run_modes_schedule_witness :
    (∃ evs, (run
        ⟨some "svc/_HOST@R", 600, "/usr/bin/kinit", "/tmp/cc", true, false⟩
        (fun _ => ⟨"h1", 0, .ok [], 0⟩) 2 (some "alice@R") "kt.keytab"
        .one_time).2.2 = [SEvent.renewal evs])
    ∧ alternatesRS 600 (run
        ⟨some "svc/_HOST@R", 600, "/usr/bin/kinit", "/tmp/cc", true, false⟩
        (fun _ => ⟨"h1", 0, .ok [], 0⟩) 2 (some "alice@R") "kt.keytab"
        .standard).2.2 = true
    ∧ renewCount (run
        ⟨some "svc/_HOST@R", 600, "/usr/bin/kinit", "/tmp/cc", true, false⟩
        (fun _ => ⟨"h1", 0, .ok [], 0⟩) 2 (some "alice@R") "kt.keytab"
        .standard).2.2 = 2 := by
  have h : ∀ i st0, i < 2 → ∃ c st1 evs,
      renew_from_kt
        ⟨some "svc/_HOST@R", 600, "/usr/bin/kinit", "/tmp/cc", true, false⟩
        ⟨"h1", 0, .ok [], 0⟩ st0 (some "alice@R") "kt.keytab"
        = (.ret c, st1, evs) := by
    intro i st0 hi
    match st0 with
    | none => exact ⟨0, some false, _, rfl⟩
    | some false => exact ⟨0, some false, _, rfl⟩
    | some true => exact ⟨0, some true, _, rfl⟩
  have hw := run_modes_schedule
    ⟨some "svc/_HOST@R", 600, "/usr/bin/kinit", "/tmp/cc", true, false⟩
    (fun _ => ⟨"h1", 0, .ok [], 0⟩) (some "alice@R") "kt.keytab" 2
    (by decide) h
  exact ⟨hw.1, hw.2.2.1, hw.2.2.2⟩

/-- C10: in ONE_TIME mode `run` calls `renew_from_kt` with
`exit_on_fail` left at its default `True`, so a non-zero tool exit
terminates the whole process with the tool's status instead of returning
a failure outcome. -/
theorem run_one_time_default_exit_on_fail (conf : Conf) (envs : Nat → Env)
    (fuel : Nat) (p : Option String) (k : String) (cp : String) (S : Int)
    (hk : k ≠ "")
    (hp : get_kerberos_principal conf (envs 0).hostname p = .ok cp)
    (hS : (envs 0).toolExit = S) (hne : S ≠ 0) :
    (run conf envs fuel p k .one_time).1 = .exit S := by
  subst hS
  have hr := renew_from_kt_toolFail conf (envs 0) none p k true cp hp hne
  simp only [ite_true] at hr
  simp [run, hk, hr]

/-- Closed witness for C10, at tool exit status 3. -/
theorem run_one_time_default_exit_on_fail_witness :
    (run ⟨some "svc/_HOST@R", 600, "/usr/bin/kinit", "/tmp/cc", true, false⟩
      (fun _ => ⟨"h1", 3, .ok [], 0⟩) 1 (some "alice@R") "kt.keytab"
      .one_time).1 = .exit 3 :=
  run_one_time_default_exit_on_fail
    ⟨some "svc/_HOST@R", 600, "/usr/bin/kinit", "/tmp/cc", true, false⟩
    (fun _ => ⟨"h1", 3, .ok [], 0⟩) 1 (some "alice@R") "kt.keytab"
    "alice@R" 3 (by decide) rfl rfl (by decide)

end Kerberos
